import Mathlib

/-!
Verification of the client-side image normalizer (`compressImage` in
`src/components/hero.jsx`) against its specification.

The function wraps a browser pipeline in a promise:

  FileReader.readAsDataURL → Image decode (`img.onload`) → canvas resize →
  `canvas.toBlob("image/jpeg", 0.7)` → `resolve(new File([blob], file.name, ...))`

The embedding below models the browser environment explicitly:
the codec's verdict on the file's bytes is a `DecodeResult` parameter, and
`Date.now()` at file-construction time is a `now` parameter.  All numeric
work is exact rational arithmetic; the WebIDL coercion applied when a JS
number is assigned to `canvas.width` / `canvas.height` (truncation toward
zero, then reduction modulo 2^32) is modelled by `canvasDimCoerce`.
-/

/-- A caller-supplied browser `File`: a name, a MIME type and byte content. -/
structure SourceFile where
  name : String
  mimeType : String
  content : List Nat
deriving DecidableEq

/-- Verdict of the browser's image codec on the source file's bytes (after the
`FileReader` has turned them into a data URL): either a decoded raster with its
intrinsic pixel dimensions, in which case `img.onload` fires, or a decode
failure (corrupt data, unsupported codec), in which case the `Image` element
fires `error` — for which `compressImage` installs no handler. -/
inductive DecodeResult where
  | ok (width height : Nat)
  | failure
deriving DecidableEq

/-- An encoded image blob as produced by `canvas.toBlob`: the pixel dimensions
of the serialized surface together with the format and quality arguments that
were passed to the encoder. -/
structure Blob where
  width : Nat
  height : Nat
  format : String
  quality : ℚ
deriving DecidableEq

/-- Content of a constructed `File`.  A `Blob` part contributes its encoded
bytes; a non-`Blob` part is stringified, so `new File([null], …)` yields a file
whose content is the four characters of the string `"null"`. -/
inductive FileContent where
  | encoded (b : Blob)
  | text (s : String)
deriving DecidableEq

/-- The `File` object that `compressImage` hands to `resolve`. -/
structure OutputFile where
  name : String
  type : String
  content : FileContent
  lastModified : Nat
deriving DecidableEq

/-- Final settlement state of the returned promise.  `pending` means no
settlement ever happens: every registered callback chain has died (for example
because `img.onerror` is never installed), so the promise hangs forever. -/
inductive PromiseState where
  | pending
  | resolved (f : OutputFile)
  | rejected (err : String)
deriving DecidableEq

/-- Truncation of a rational toward zero, as ECMAScript integer conversion
performs on a JS number. -/
def truncQ (x : ℚ) : ℤ := if 0 ≤ x then ⌊x⌋ else -⌊-x⌋

/-- Assigning a JS number to `canvas.width` or `canvas.height` passes it
through the WebIDL `unsigned long` conversion: truncate toward zero, then
reduce modulo 2^32. -/
def canvasDimCoerce (x : ℚ) : ℕ := (truncQ x % 4294967296).toNat

/-- Embeds `const scale = maxSize / Math.max(img.width, img.height)`. -/
def scaleFor (w h : ℕ) (maxSize : ℚ) : ℚ := maxSize / ((max w h : ℕ) : ℚ)

/-- Embeds `canvas.width = img.width * scale`. -/
def canvasWidth (w h : ℕ) (maxSize : ℚ) : ℕ :=
  canvasDimCoerce ((w : ℚ) * scaleFor w h maxSize)

/-- Embeds `canvas.height = img.height * scale`. -/
def canvasHeight (w h : ℕ) (maxSize : ℚ) : ℕ :=
  canvasDimCoerce ((h : ℚ) * scaleFor w h maxSize)

/-- The fixed re-encoding format passed to `canvas.toBlob` and used as the
`type` of the constructed `File`. -/
def encodeFormat : String := "image/jpeg"

/-- The fixed encoder quality passed to `canvas.toBlob` (0.7 on a 0–1 scale). -/
def encodeQuality : ℚ := 7 / 10

/-- Embeds `canvas.toBlob(cb, format, quality)`.  Per the HTML standard the
callback is always invoked: with `null` when the canvas has no pixels (zero
width or zero height, a serialization failure), and with an encoded blob of the
canvas's dimensions otherwise. -/
def toBlob (width height : ℕ) (format : String) (quality : ℚ) : Option Blob :=
  if width = 0 ∨ height = 0 then none
  else some { width := width, height := height, format := format, quality := quality }

/-- Content of `new File([blob], …)` for the (possibly `null`) blob argument. -/
def filePartOf : Option Blob → FileContent
  | some b => FileContent.encoded b
  | none => FileContent.text ("null")

/-- The `File` constructed inside the `toBlob` callback and passed to
`resolve`: `new File([blob], file.name, { type: "image/jpeg", lastModified:
Date.now() })` after drawing the decoded `w × h` raster onto the scaled
canvas. -/
def outputFileOf (file : SourceFile) (w h : ℕ) (maxSize : ℚ) (now : ℕ) : OutputFile :=
  { name := file.name
    type := encodeFormat
    content := filePartOf (toBlob (canvasWidth w h maxSize) (canvasHeight w h maxSize)
      encodeFormat encodeQuality)
    lastModified := now }

/-- Embeds `compressImage(file, maxSize)` from `src/components/hero.jsx`.
`dec` is the browser codec's verdict on `file`'s bytes and `now` is the value
of `Date.now()` when the output `File` is constructed.  The executor only ever
calls `resolve`, and only from inside the `toBlob` callback, which runs only
after `img.onload`; on a decode failure neither `img.onerror` nor
`reader.onerror` has a handler, so nothing fires and the promise stays pending
forever. -/
def compressImage (file : SourceFile) (maxSize : ℚ) (dec : DecodeResult) (now : ℕ) :
    PromiseState :=
  match dec with
  | DecodeResult.failure => PromiseState.pending
  | DecodeResult.ok w h => PromiseState.resolved (outputFileOf file w h maxSize now)

/-- One settlement call performed by the executor on the promise it created. -/
inductive SettleEvent where
  | resolveCall (f : OutputFile)
  | rejectCall (err : String)
deriving DecidableEq

/-- The sequence of settlement calls the executor performs, in order.  The only
settlement site in the source is the single `resolve(compressedFile)` inside
the `toBlob` callback; `toBlob` invokes its callback exactly once, and the
callback chain is reached exactly once per call (one `reader.onload`, one
`img.onload`).  On a decode failure no callback ever runs, so the list is
empty. -/
def settleTrace (file : SourceFile) (maxSize : ℚ) (dec : DecodeResult) (now : ℕ) :
    List SettleEvent :=
  match dec with
  | DecodeResult.failure => []
  | DecodeResult.ok w h => [SettleEvent.resolveCall (outputFileOf file w h maxSize now)]

/-- State-passing form of `compressImage`: the result paired with the source
file as it stands after the call.  The source contains no assignment to `file`
or to any of its fields — it only reads `file.name` and passes `file` to
`FileReader.readAsDataURL`, a read-only operation — so the post-call source
file is the pre-call one, unchanged. -/
def compressImageRun (file : SourceFile) (maxSize : ℚ) (dec : DecodeResult) (now : ℕ) :
    PromiseState × SourceFile :=
  (compressImage file maxSize dec now, file)

/-- Spec-side dimension computation, following the specification's words:
a rendering surface of size `(round(w*scale), round(h*scale))` with
round-to-nearest. -/
def specRoundDims (w h : ℕ) (maxD : ℚ) : ℤ × ℤ :=
  (round ((w : ℚ) * scaleFor w h maxD), round ((h : ℚ) * scaleFor w h maxD))

/-- Spec-side dimension computation amended to truncation: surface size
`(trunc(w*scale), trunc(h*scale))`, truncating toward zero (equivalently,
floor, since the scaled dimensions are nonnegative). -/
def specTruncDims (w h : ℕ) (maxD : ℚ) : ℕ × ℕ :=
  ((⌊(w : ℚ) * scaleFor w h maxD⌋).toNat, (⌊(h : ℚ) * scaleFor w h maxD⌋).toNat)

/-! Helper lemmas about the dimension arithmetic. -/

lemma truncQ_of_nonneg {x : ℚ} (h : 0 ≤ x) : truncQ x = ⌊x⌋ := if_pos h

lemma canvasDimCoerce_of_nonneg {x : ℚ} (h0 : 0 ≤ x) (hb : ⌊x⌋ < 4294967296) :
    canvasDimCoerce x = (⌊x⌋).toNat := by
  have h1 : 0 ≤ ⌊x⌋ := Int.floor_nonneg.mpr h0
  rw [canvasDimCoerce, truncQ_of_nonneg h0]
  omega

lemma canvasDimCoerce_natCast {n : ℕ} (hb : n < 4294967296) :
    canvasDimCoerce (n : ℚ) = n := by
  rw [canvasDimCoerce_of_nonneg (by positivity)
    (by rw [Int.floor_natCast]; exact_mod_cast hb), Int.floor_natCast]
  omega

lemma scaled_nonneg (d w h : ℕ) (maxSize : ℚ) (hnn : 0 ≤ maxSize) :
    0 ≤ (d : ℚ) * scaleFor w h maxSize := by
  rw [scaleFor]
  positivity

lemma scaled_le (d w h : ℕ) (maxSize : ℚ) (hnn : 0 ≤ maxSize) (hd : d ≤ max w h) :
    (d : ℚ) * scaleFor w h maxSize ≤ maxSize := by
  rcases Nat.eq_zero_or_pos (max w h) with hm | hm
  · have hd0 : d = 0 := by omega
    subst hd0
    simpa using hnn
  · have hmq : (0 : ℚ) < ((max w h : ℕ) : ℚ) := by exact_mod_cast hm
    rw [scaleFor, ← mul_div_assoc, div_le_iff₀ hmq]
    have hdq : (d : ℚ) ≤ ((max w h : ℕ) : ℚ) := by exact_mod_cast hd
    nlinarith

lemma larger_mul_scaleFor (w h : ℕ) (maxSize : ℚ) (hpos : 0 < max w h) :
    ((max w h : ℕ) : ℚ) * scaleFor w h maxSize = maxSize := by
  have hne : ((max w h : ℕ) : ℚ) ≠ 0 := by
    have : (0 : ℚ) < ((max w h : ℕ) : ℚ) := by exact_mod_cast hpos
    exact this.ne'
  rw [scaleFor, ← mul_div_assoc]
  exact mul_div_cancel_left₀ _ hne

lemma canvasDim_le (d w h maxD : ℕ) (hd : d ≤ max w h) (hb : maxD < 4294967296) :
    canvasDimCoerce ((d : ℚ) * scaleFor w h (maxD : ℚ)) ≤ maxD := by
  have hnn : (0 : ℚ) ≤ (maxD : ℚ) := by positivity
  have hx0 := scaled_nonneg d w h (maxD : ℚ) hnn
  have hfle : ⌊(d : ℚ) * scaleFor w h (maxD : ℚ)⌋ ≤ (maxD : ℤ) := by
    calc ⌊(d : ℚ) * scaleFor w h (maxD : ℚ)⌋ ≤ ⌊(maxD : ℚ)⌋ :=
          Int.floor_le_floor (scaled_le d w h (maxD : ℚ) hnn hd)
      _ = (maxD : ℤ) := Int.floor_natCast maxD
  rw [canvasDimCoerce_of_nonneg hx0 (lt_of_le_of_lt hfle (by exact_mod_cast hb))]
  omega

lemma canvasWidth_eq_of_max (w h maxD : ℕ) (hm : max w h = w) (hpos : 0 < max w h)
    (hb : maxD < 4294967296) : canvasWidth w h (maxD : ℚ) = maxD := by
  rw [canvasWidth, show ((w : ℚ)) = ((max w h : ℕ) : ℚ) by rw [hm],
    larger_mul_scaleFor w h _ hpos, canvasDimCoerce_natCast hb]

lemma canvasHeight_eq_of_max (w h maxD : ℕ) (hm : max w h = h) (hpos : 0 < max w h)
    (hb : maxD < 4294967296) : canvasHeight w h (maxD : ℚ) = maxD := by
  rw [canvasHeight, show ((h : ℚ)) = ((max w h : ℕ) : ℚ) by rw [hm],
    larger_mul_scaleFor w h _ hpos, canvasDimCoerce_natCast hb]

lemma maxCanvasDim_eq (w h maxD : ℕ) (hpos : 0 < max w h) (hb : maxD < 4294967296) :
    max (canvasWidth w h (maxD : ℚ)) (canvasHeight w h (maxD : ℚ)) = maxD := by
  rcases le_total h w with hle | hle
  · rw [canvasWidth_eq_of_max w h maxD (max_eq_left hle) hpos hb]
    exact max_eq_left (canvasDim_le h w h maxD (le_max_right w h) hb)
  · rw [canvasHeight_eq_of_max w h maxD (max_eq_right hle) hpos hb]
    exact max_eq_right (canvasDim_le w w h maxD (le_max_left w h) hb)

/-! Helper lemmas extracting the shape of a resolved output. -/

lemma resolved_out_eq {file : SourceFile} {w h : ℕ} {maxSize : ℚ} {now : ℕ}
    {out : OutputFile}
    (hres : compressImage file maxSize (DecodeResult.ok w h) now = PromiseState.resolved out) :
    out = outputFileOf file w h maxSize now := by
  simpa [compressImage] using hres.symm

lemma encoded_content_eq {file : SourceFile} {w h : ℕ} {maxSize : ℚ} {now : ℕ} {b : Blob}
    (hc : (outputFileOf file w h maxSize now).content = FileContent.encoded b) :
    b.width = canvasWidth w h maxSize ∧ b.height = canvasHeight w h maxSize ∧
      b.format = encodeFormat ∧ b.quality = encodeQuality := by
  rw [outputFileOf] at hc
  simp only [toBlob] at hc
  by_cases h0 : canvasWidth w h maxSize = 0 ∨ canvasHeight w h maxSize = 0
  · rw [if_pos h0] at hc
    simp [filePartOf] at hc
  · rw [if_neg h0] at hc
    simp only [filePartOf, FileContent.encoded.injEq] at hc
    rw [← hc]
    exact ⟨rfl, rfl, rfl, rfl⟩

/-! Claim theorems. -/

/-- C1: the specification says a corrupt / undecodable input makes the promise
returned by `compressImage` settle as rejected, never hanging.  The code has no
rejection path at all (`img.onerror` and `reader.onerror` are never installed),
so on every decode failure the promise instead stays pending forever; this
theorem evaluates the code at such failing inputs. -/
theorem C1_decode_failure_leaves_promise_pending (file : SourceFile) (maxSize : ℚ)
    (now : ℕ) :
    compressImage file maxSize DecodeResult.failure now = PromiseState.pending := rfl

/-- C2 counterexample: for a decodable 5×3 image with `maxDimension = 3`, the
scale is 3/5; the code truncates `3 * (3/5) = 9/5` to a canvas height of 1,
while round-to-nearest — which the claim asserts — would give 2. -/
theorem C2_trunc_vs_round_counterexample :
    canvasHeight 5 3 3 = 1 ∧ specRoundDims 5 3 3 = (3, 2) ∧
      ((canvasWidth 5 3 3 : ℤ), (canvasHeight 5 3 3 : ℤ)) ≠ specRoundDims 5 3 3 := by
  refine ⟨?_, ?_, ?_⟩ <;>
    norm_num [canvasWidth, canvasHeight, specRoundDims, scaleFor, canvasDimCoerce,
      truncQ, round_eq, Prod.ext_iff]

/-- C2 (amended): `compressImage` allocates its canvas with width
`trunc(w*scale)` and height `trunc(h*scale)` — truncation toward zero
(equivalently floor, the dimensions being nonnegative), not round-to-nearest —
whenever `maxDimension` is nonnegative and small enough that the WebIDL
`unsigned long` reduction modulo 2^32 does not wrap. -/
theorem C2_canvas_dims_are_truncated (w h : ℕ) (maxD : ℚ) (hnn : 0 ≤ maxD)
    (hb : ⌊maxD⌋ < 4294967296) :
    (canvasWidth w h maxD, canvasHeight w h maxD) = specTruncDims w h maxD := by
  have hbw : ⌊(w : ℚ) * scaleFor w h maxD⌋ < 4294967296 :=
    lt_of_le_of_lt (Int.floor_le_floor (scaled_le w w h maxD hnn (le_max_left w h))) hb
  have hbh : ⌊(h : ℚ) * scaleFor w h maxD⌋ < 4294967296 :=
    lt_of_le_of_lt (Int.floor_le_floor (scaled_le h w h maxD hnn (le_max_right w h))) hb
  rw [specTruncDims, canvasWidth, canvasHeight,
    canvasDimCoerce_of_nonneg (scaled_nonneg w w h maxD hnn) hbw,
    canvasDimCoerce_of_nonneg (scaled_nonneg h w h maxD hnn) hbh]

/-- C2 witness: the amended statement at the concrete input of the
counterexample, a 5×3 image with `maxDimension = 3`. -/
theorem C2_canvas_dims_are_truncated_witness :
    (canvasWidth 5 3 3, canvasHeight 5 3 3) = specTruncDims 5 3 3 :=
  C2_canvas_dims_are_truncated 5 3 3 (by norm_num) (by norm_num)

/-- C3: the specification says `maxDimension = 0` must surface as an
EncodeFailure, i.e. a rejected promise.  In the code the scale becomes 0, the
canvas 0×0, `toBlob` passes `null` to its callback, and
`new File([null], …)` stringifies the part — so the promise instead settles as
resolved, with a junk output file whose content is the string `"null"`. -/
theorem C3_zero_maxDimension_resolves (file : SourceFile) (w h : ℕ) (now : ℕ) :
    compressImage file 0 (DecodeResult.ok w h) now =
      PromiseState.resolved
        { name := file.name
          type := encodeFormat
          content := FileContent.text ("null")
          lastModified := now } := by
  simp [compressImage, outputFileOf, canvasWidth, canvasHeight, scaleFor,
    canvasDimCoerce, truncQ, toBlob, filePartOf]

/-- C4: for every decodable source image whose larger dimension exceeds
`maxDimension` (taken below the WebIDL wrap bound 2^32), the output file of a
successful call has its larger dimension within one pixel of `maxDimension` (in
the exact rational model it is equal on the nose). -/
theorem C4_output_larger_dim_within_one_of_max (file : SourceFile) (w h maxD : ℕ)
    (now : ℕ) (out : OutputFile) (b : Blob)
    (hgt : maxD < max w h) (hb : maxD < 4294967296)
    (hres : compressImage file (maxD : ℚ) (DecodeResult.ok w h) now =
      PromiseState.resolved out)
    (hc : out.content = FileContent.encoded b) :
    (((max b.width b.height : ℕ) : ℤ) - (maxD : ℤ)).natAbs ≤ 1 := by
  obtain rfl := resolved_out_eq hres
  obtain ⟨hbw, hbh, -, -⟩ := encoded_content_eq hc
  rw [hbw, hbh, maxCanvasDim_eq w h maxD (lt_of_le_of_lt (Nat.zero_le maxD) hgt) hb]
  simp

/-- C4 witness: the concrete 2000×1000 image at `maxDimension = 512`. -/
theorem C4_output_larger_dim_witness :
    (((max (512 : ℕ) 256 : ℕ) : ℤ) - ((512 : ℕ) : ℤ)).natAbs ≤ 1 :=
  C4_output_larger_dim_within_one_of_max
    (SourceFile.mk ("input.png") ("image/png") [0, 1, 2]) 2000 1000 512 7
    (OutputFile.mk ("input.png") encodeFormat
      (FileContent.encoded (Blob.mk 512 256 encodeFormat encodeQuality)) 7)
    (Blob.mk 512 256 encodeFormat encodeQuality)
    (by norm_num) (by norm_num)
    (by norm_num [compressImage, outputFileOf, canvasWidth, canvasHeight, scaleFor,
      canvasDimCoerce, truncQ, toBlob, filePartOf]
        <;> decide)
    rfl

/-- C5 counterexample: the claim says every decode or encode failure leaves the
promise pending forever.  An encode failure does not: with `maxDimension = 0`
on a decodable 4×4 image the canvas is 0×0, the encode fails (`toBlob` passes
`null`), yet the promise still resolves — with a junk file — rather than
staying pending. -/
theorem C5_encode_failure_not_pending_counterexample :
    compressImage (SourceFile.mk ("pic.png") ("image/png") [7]) 0
        (DecodeResult.ok 4 4) 3 ≠ PromiseState.pending ∧
      compressImage (SourceFile.mk ("pic.png") ("image/png") [7]) 0
          (DecodeResult.ok 4 4) 3 =
        PromiseState.resolved
          (OutputFile.mk ("pic.png") encodeFormat (FileContent.text ("null")) 3) := by
  constructor <;>
    simp [compressImage, outputFileOf, canvasWidth, canvasHeight, scaleFor,
      canvasDimCoerce, truncQ, toBlob, filePartOf]

/-- C5 (amended): the promise returned by `compressImage` never settles as
rejected — every call either resolves or stays pending forever — and a decode
failure in particular leaves it pending forever; an encode failure, however,
still resolves (with a file wrapping the stringified `null` blob), unlike what
the original claim says. -/
theorem C5_never_rejected (file : SourceFile) (maxSize : ℚ) (dec : DecodeResult)
    (now : ℕ) :
    (compressImage file maxSize dec now = PromiseState.pending ∨
      ∃ out : OutputFile, compressImage file maxSize dec now = PromiseState.resolved out) ∧
      compressImage file maxSize DecodeResult.failure now = PromiseState.pending := by
  cases dec with
  | failure => exact ⟨Or.inl rfl, rfl⟩
  | ok w h => exact ⟨Or.inr ⟨outputFileOf file w h maxSize now, rfl⟩, rfl⟩

/-- C6: when the decoded image is strictly smaller than `maxSize`
(`0 < max(w,h) < maxSize`, with `maxSize` below the WebIDL wrap bound 2^32),
`compressImage` upscales rather than passing through: the scale factor exceeds
1 and the larger dimension of the encoded output equals `maxSize`, not the
original dimension. -/
theorem C6_small_input_is_upscaled (file : SourceFile) (w h maxS : ℕ) (now : ℕ)
    (out : OutputFile) (b : Blob)
    (hpos : 0 < max w h) (hlt : max w h < maxS) (hb : maxS < 4294967296)
    (hres : compressImage file (maxS : ℚ) (DecodeResult.ok w h) now =
      PromiseState.resolved out)
    (hc : out.content = FileContent.encoded b) :
    1 < scaleFor w h (maxS : ℚ) ∧ max b.width b.height = maxS ∧
      max b.width b.height ≠ max w h := by
  obtain rfl := resolved_out_eq hres
  obtain ⟨hbw, hbh, -, -⟩ := encoded_content_eq hc
  have hmq : (0 : ℚ) < ((max w h : ℕ) : ℚ) := by exact_mod_cast hpos
  have hdims : max b.width b.height = maxS := by
    rw [hbw, hbh, maxCanvasDim_eq w h maxS hpos hb]
  refine ⟨?_, hdims, ?_⟩
  · rw [scaleFor, lt_div_iff₀ hmq, one_mul]
    exact_mod_cast hlt
  · rw [hdims]
    exact (Nat.ne_of_lt hlt).symm

/-- C6 witness: a 100×100 image with `maxSize = 512` upscales to 512×512. -/
theorem C6_small_input_is_upscaled_witness :
    1 < scaleFor 100 100 ((512 : ℕ) : ℚ) ∧
      max (Blob.mk 512 512 encodeFormat encodeQuality).width
          (Blob.mk 512 512 encodeFormat encodeQuality).height = 512 ∧
      max (Blob.mk 512 512 encodeFormat encodeQuality).width
          (Blob.mk 512 512 encodeFormat encodeQuality).height ≠ max 100 100 :=
  C6_small_input_is_upscaled
    (SourceFile.mk ("avatar.png") ("image/png") [4]) 100 100 512 0
    (OutputFile.mk ("avatar.png") encodeFormat
      (FileContent.encoded (Blob.mk 512 512 encodeFormat encodeQuality)) 0)
    (Blob.mk 512 512 encodeFormat encodeQuality)
    (by norm_num) (by norm_num) (by norm_num)
    (by norm_num [compressImage, outputFileOf, canvasWidth, canvasHeight, scaleFor,
      canvasDimCoerce, truncQ, toBlob, filePartOf]
        <;> decide)
    rfl

/-- C7: a decodable 2000×1000 source at `maxDimension = 512` resolves with an
output encoded at exactly 512×256 (and in the fixed format and quality). -/
theorem C7_2000x1000_at_512_gives_512x256 :
    compressImage (SourceFile.mk ("photo.bmp") ("image/bmp") [9, 9]) 512
        (DecodeResult.ok 2000 1000) 11 =
      PromiseState.resolved
        (OutputFile.mk ("photo.bmp") encodeFormat
          (FileContent.encoded (Blob.mk 512 256 encodeFormat encodeQuality)) 11) := by
  norm_num [compressImage, outputFileOf, canvasWidth, canvasHeight, scaleFor,
    canvasDimCoerce, truncQ, toBlob, filePartOf]
    <;> decide

/-- C8: whatever the input file's name, MIME type or bytes, any resolved output
of `compressImage` has MIME type "image/jpeg", and its encoded content (when
the encode succeeded) was produced with format "image/jpeg" at quality 0.7. -/
theorem C8_output_mime_fixed_jpeg_quality_07 (file : SourceFile) (maxSize : ℚ)
    (dec : DecodeResult) (now : ℕ) (out : OutputFile)
    (hres : compressImage file maxSize dec now = PromiseState.resolved out) :
    out.type = "image/jpeg" ∧
      ∀ b : Blob, out.content = FileContent.encoded b →
        b.format = "image/jpeg" ∧ b.quality = 7 / 10 := by
  cases dec with
  | failure => exact absurd hres (by simp [compressImage])
  | ok w h =>
    obtain rfl := resolved_out_eq hres
    refine ⟨rfl, fun b hc => ?_⟩
    obtain ⟨-, -, hf, hq⟩ := encoded_content_eq hc
    exact ⟨hf, hq⟩

/-- C8 witness: the PNG-typed input of C7 comes out as "image/jpeg" at 0.7. -/
theorem C8_output_mime_fixed_witness :
    (OutputFile.mk ("photo2.png") encodeFormat
        (FileContent.encoded (Blob.mk 512 256 encodeFormat encodeQuality)) 11).type =
      "image/jpeg" ∧
      ∀ b : Blob,
        (OutputFile.mk ("photo2.png") encodeFormat
            (FileContent.encoded (Blob.mk 512 256 encodeFormat encodeQuality)) 11).content =
          FileContent.encoded b →
        b.format = "image/jpeg" ∧ b.quality = 7 / 10 :=
  C8_output_mime_fixed_jpeg_quality_07
    (SourceFile.mk ("photo2.png") ("image/png") [1]) 512 (DecodeResult.ok 2000 1000) 11
    (OutputFile.mk ("photo2.png") encodeFormat
      (FileContent.encoded (Blob.mk 512 256 encodeFormat encodeQuality)) 11)
    (by norm_num [compressImage, outputFileOf, canvasWidth, canvasHeight, scaleFor,
      canvasDimCoerce, truncQ, toBlob, filePartOf]
        <;> decide)

/-- C9: the executor settles the promise at most once — its settlement trace
has length at most one — and a resolved call's trace is exactly the one
`resolve` of its single output file: no partial or streaming output, no second
settlement. -/
theorem C9_settles_at_most_once (file : SourceFile) (maxSize : ℚ) (dec : DecodeResult)
    (now : ℕ) :
    (settleTrace file maxSize dec now).length ≤ 1 ∧
      ∀ out : OutputFile,
        compressImage file maxSize dec now = PromiseState.resolved out →
          settleTrace file maxSize dec now = [SettleEvent.resolveCall out] := by
  cases dec with
  | failure =>
    refine ⟨by simp [settleTrace], fun out hres => ?_⟩
    exact absurd hres (by simp [compressImage])
  | ok w h =>
    refine ⟨by simp [settleTrace], fun out hres => ?_⟩
    obtain rfl := resolved_out_eq hres
    rfl

/-- C9 witness: the trace of a successful concrete call is the single resolve
of its output file. -/
theorem C9_settles_at_most_once_witness :
    (settleTrace (SourceFile.mk ("w.png") ("image/png") []) 512
        (DecodeResult.ok 2000 1000) 0).length ≤ 1 ∧
      ∀ out : OutputFile,
        compressImage (SourceFile.mk ("w.png") ("image/png") []) 512
            (DecodeResult.ok 2000 1000) 0 = PromiseState.resolved out →
          settleTrace (SourceFile.mk ("w.png") ("image/png") []) 512
              (DecodeResult.ok 2000 1000) 0 = [SettleEvent.resolveCall out] :=
  C9_settles_at_most_once (SourceFile.mk ("w.png") ("image/png") []) 512
    (DecodeResult.ok 2000 1000) 0

/-- C10: the caller's source file is read, never written: after any call —
succeeding, failing or hanging — its name, MIME type and byte content are what
they were before, and the whole post-call file equals the pre-call one. -/
theorem C10_source_file_never_modified (file : SourceFile) (maxSize : ℚ)
    (dec : DecodeResult) (now : ℕ) :
    ((compressImageRun file maxSize dec now).2).name = file.name ∧
      ((compressImageRun file maxSize dec now).2).mimeType = file.mimeType ∧
      ((compressImageRun file maxSize dec now).2).content = file.content ∧
      (compressImageRun file maxSize dec now).2 = file :=
  ⟨rfl, rfl, rfl, rfl⟩
